import Mathlib

set_option maxRecDepth 8000

namespace PraiseFrank

/-! Shallow embedding of `src/run_animation.py` (terminal ASCII-animation player).
Strings from the Python source are modelled as `List Char`; machine integers as
`Nat` (all quantities involved are non-negative and overflow-free). -/

/-- Value of one hexadecimal digit character as accepted by Python `int(x, 16)`:
`0`-`9` (codes 48–57), `a`-`f` (97–102), `A`-`F` (65–70). -/
def hexDigit? (c : Char) : Option Nat :=
  if 48 ≤ c.toNat ∧ c.toNat ≤ 57 then some (c.toNat - 48)
  else if 97 ≤ c.toNat ∧ c.toNat ≤ 102 then some (c.toNat - 97 + 10)
  else if 65 ≤ c.toNat ∧ c.toNat ≤ 70 then some (c.toNat - 65 + 10)
  else none

/-- Accumulating hexadecimal parse; fails on the first non-hex character. -/
def hexAcc (acc : Nat) : List Char → Option Nat
  | [] => some acc
  | c :: r =>
    match hexDigit? c with
    | some d => hexAcc (16 * acc + d) r
    | none => none

/-- Python `int(s, 16)`: fails (raises `ValueError`) on the empty string or on a
non-hex character.  (CPython additionally tolerates surrounding whitespace, a
sign, a `0x` marker and underscore separators; no input exercised in this
development uses those forms.) -/
def pyIntHex (s : List Char) : Option Nat :=
  match s with
  | [] => none
  | _ :: _ => hexAcc 0 s

/-- Python slice `s[a:b]` for `0 ≤ a ≤ b`, on a list of characters. -/
def pySlice (s : List Char) (a b : Nat) : List Char :=
  (s.drop a).take (b - a)

/-- Body of `hex_to_rgb` (src/run_animation.py lines 49–54) after the
`lstrip('#')`: double each character when exactly three remain, then parse the
slices `[0:2]`, `[2:4]`, `[4:6]` as hexadecimal integers in that order; a
raised `ValueError` is modelled as `none`. -/
def hexCore (s : List Char) : Option (Nat × Nat × Nat) :=
  let hc := if s.length = 3 then (s.map (fun c => [c, c])).flatten else s
  match pyIntHex (pySlice hc 0 2) with
  | none => none
  | some r =>
    match pyIntHex (pySlice hc 2 4) with
    | none => none
    | some g =>
      match pyIntHex (pySlice hc 4 6) with
      | none => none
      | some b => some (r, g, b)

/-- `hex_to_rgb` (lines 47–54): `hex_color.lstrip('#')` strips every leading
`#` (not just one), then the hexadecimal-parsing body runs. -/
def hex_to_rgb (s : List Char) : Option (Nat × Nat × Nat) :=
  hexCore (s.dropWhile (fun c => c = '#'))

/-- Python `int(round(num / den))` for natural `num` and positive `den`,
computed on the exact rational value: round to nearest, ties to even
(banker's rounding), exactly Python's `round`.  At every call site in this
file the rational argument is provably never at a half-integer, and the
double-precision evaluation performed by the source is far closer to the
exact rational than the distance to the nearest half-integer, so the exact
model and the floating-point source agree. -/
def pyRound (num den : Nat) : Nat :=
  if 2 * (num % den) < den then num / den
  else if den < 2 * (num % den) then num / den + 1
  else if (num / den) % 2 = 0 then num / den else num / den + 1

/-- `rgb_to_ansi256` (lines 57–70): grayscale ramp when `r = g = b`, otherwise
the 6×6×6 color cube. -/
def rgb_to_ansi256 (r g b : Nat) : Nat :=
  if r = g ∧ g = b then
    if r < 8 then 16
    else if r > 248 then 231
    else 232 + pyRound ((r - 8) * 24) 247
  else
    16 + 36 * pyRound (r * 5) 255 + 6 * pyRound (g * 5) 255 + pyRound (b * 5) 255

/-- Python `s.rstrip('\n')` on a list of characters: drop every trailing
newline. -/
def rstripNlL (l : List Char) : List Char :=
  (l.reverse.dropWhile (fun c => c = '\n')).reverse

/-- Python `'\n'.join(...)`: concatenate with a newline between consecutive
elements. -/
def charsJoin : List (List Char) → List Char
  | [] => []
  | [l] => l
  | l :: ls => l ++ '\n' :: charsJoin ls

/-- Python `s.split(sep)` for a one-character separator: always at least one
(possibly empty) part, one extra part per separator occurrence. -/
def splitOnChar (sep : Char) : List Char → List (List Char)
  | [] => [[]]
  | c :: r =>
    match splitOnChar sep r with
    | [] => [[]]
    | h :: t => if c = sep then [] :: h :: t else (c :: h) :: t

/-- Python `str.splitlines()` restricted to `'\n'` line breaks (the only line
terminator occurring in the animation documents): empty string gives no lines,
and a trailing newline does not open a final empty line. -/
def splitlinesL (s : List Char) : List (List Char) :=
  if s = [] then []
  else
    let ps := splitOnChar '\n' s
    if s.getLast? = some '\n' then ps.dropLast else ps

/-- One animation frame as consumed by the player: the fields of the frame
dict that `frame_to_text` and `render_frame_with_colors` read.  `foreground`
is the JSON object parsed by `json.loads` from `frame["colors"]["foreground"]`
given as its key/value pairs in order; `none` stands for a missing or
non-string `foreground` (or a `json.loads` failure, line 106–108), whose
effect is likewise an empty color map. -/
structure Frame where
  contentString : Option (List Char)
  content : Option (List (List Char))
  foreground : Option (List (List Char × List Char))

/-- Fallback part of `frame_to_text` (lines 40–44): join the `content` lines,
each stripped of trailing newlines; an absent or non-list `content` yields the
empty string. -/
def frameContentText (f : Frame) : List Char :=
  match f.content with
  | some ls => charsJoin (ls.map rstripNlL)
  | none => []

/-- `frame_to_text` (lines 33–44): prefer a non-empty `contentString`
(`if s:` is Python truthiness), else fall back to the `content` list.  The
`if not frame` guard of line 34 is behaviourally redundant (an empty dict
reaches the final fallback and returns the empty string either way) and is
not modelled separately. -/
def frameText (f : Frame) : List Char :=
  match f.contentString with
  | some s => if s ≠ [] then rstripNlL s else frameContentText f
  | none => frameContentText f

/-- Digit-accumulating decimal parse; fails on a non-digit. -/
def decAcc (acc : Nat) : List Char → Option Nat
  | [] => some acc
  | c :: r =>
    if 48 ≤ c.toNat ∧ c.toNat ≤ 57 then decAcc (10 * acc + (c.toNat - 48)) r
    else none

/-- Python `int(s)` for base 10: an optional sign followed by at least one
decimal digit.  (CPython additionally tolerates surrounding whitespace and
underscore separators; no input exercised in this development uses those.) -/
def pyIntDec (s : List Char) : Option Int :=
  match s with
  | [] => none
  | '-' :: r => (decAcc 0 r).map (fun n => -(n : Int))
  | '+' :: r => (decAcc 0 r).map (fun n => (n : Int))
  | _ => (decAcc 0 s).map (fun n => (n : Int))

/-- Key parsing of lines 100–102: `col_s, row_s = key.split(',')` (exactly two
parts, else the `ValueError` is caught and the entry skipped), then
`int(col_s)`, `int(row_s)`. -/
def parseKey (k : List Char) : Option (Int × Int) :=
  match splitOnChar ',' k with
  | [cs, rs] =>
    match pyIntDec cs, pyIntDec rs with
    | some col, some row => some (col, row)
    | _, _ => none
  | _ => none

/-- Color-map construction of lines 92–108: each parsed `"col,row"` key is
stored under `(row, col)`; unparsable entries are skipped (`except: continue`);
a later duplicate key overwrites (lookup takes the last entry). -/
def buildColorMap (f : Frame) : List ((Int × Int) × List Char) :=
  match f.foreground with
  | none => []
  | some entries =>
    entries.foldl
      (fun m kv =>
        match parseKey kv.1 with
        | some (col, row) => m ++ [((row, col), kv.2)]
        | none => m)
      []

/-- Python `color_map.get((row_idx, col_idx))`: last-written entry wins, keys
are the (possibly negative) parsed integers while the queried indices are the
natural row/column positions. -/
def cmLookup (m : List ((Int × Int) × List Char)) (p : Nat × Nat) : Option (List Char) :=
  (m.reverse.find? (fun e => e.1 = ((p.1 : Int), (p.2 : Int)))).map (fun e => e.2)

/-- Per-cell color resolution of lines 120–127: `color = color_map.get(...)`,
`if color:` (Python truthiness — an empty token counts as no color), then
`hex_to_rgb` under `try/except` (a parse failure leaves the cell uncolored). -/
def resolveRgb (cm : Nat × Nat → Option (List Char)) (p : Nat × Nat) :
    Option (Nat × Nat × Nat) :=
  match cm p with
  | some c => if c = [] then none else hex_to_rgb c
  | none => none

/-- The ANSI reset escape `ESC[0m`. -/
def escReset : List Char := ['\x1b', '[', '0', 'm']

/-- The 24-bit foreground escape of line 134. -/
def escSetTC (r g b : Nat) : List Char :=
  '\x1b' :: '[' :: '3' :: '8' :: ';' :: '2' :: ';' ::
    ((toString r).data ++ ';' :: (toString g).data ++ ';' :: (toString b).data ++ ['m'])

/-- The 256-color foreground escape of line 147. -/
def escSet256 (n : Nat) : List Char :=
  '\x1b' :: '[' :: '3' :: '8' :: ';' :: '5' :: ';' :: ((toString n).data ++ ['m'])

/-- Truecolor branch of the per-row loop (lines 117–152): the running
`prev_color` is `none` initially (Python `None`) and afterwards `some t`,
where `t : Option (Nat × Nat × Nat)` models the tuple `(r, g, b)` whose
components are all `None` for an uncolored cell.  The produced list is the
Python `out` list of string pieces: escapes and single characters. -/
def renderRowTCGo (cm : Nat × Nat → Option (List Char)) (ri : Nat) :
    Nat → Option (Option (Nat × Nat × Nat)) → List Char → List (List Char)
  | _, prev, [] => if prev.isSome then [escReset] else []
  | colIdx, prev, ch :: rest =>
    let c := resolveRgb cm (ri, colIdx)
    if some c = prev then
      [ch] :: renderRowTCGo cm ri (colIdx + 1) prev rest
    else
      ((if prev.isSome then [escReset] else []) ++
        (match c with
          | some (r, g, b) => [escSetTC r g b]
          | none => []) ++ [[ch]]) ++ renderRowTCGo cm ri (colIdx + 1) (some c) rest

/-- 256-color branch of the per-row loop (lines 136–148): here `prev_color` is
directly the optional palette index (`prev_color = code`), so the running
state is `Option Nat`. -/
def renderRow256Go (cm : Nat × Nat → Option (List Char)) (ri : Nat) :
    Nat → Option Nat → List Char → List (List Char)
  | _, prev, [] => if prev.isSome then [escReset] else []
  | colIdx, prev, ch :: rest =>
    let code := (resolveRgb cm (ri, colIdx)).map (fun t => rgb_to_ansi256 t.1 t.2.1 t.2.2)
    if code = prev then
      [ch] :: renderRow256Go cm ri (colIdx + 1) prev rest
    else
      ((if prev.isSome then [escReset] else []) ++
        (match code with
          | some n => [escSet256 n]
          | none => []) ++ [[ch]]) ++ renderRow256Go cm ri (colIdx + 1) code rest

/-- One row of `render_frame_with_colors` (lines 117–153): dispatch on the
color mode; any mode other than `truecolor` and `256` emits bare characters. -/
def renderRow (cm : Nat × Nat → Option (List Char)) (mode : String) (ri : Nat)
    (line : List Char) : List (List Char) :=
  if mode = "truecolor" then renderRowTCGo cm ri 0 none line
  else if mode = "256" then renderRow256Go cm ri 0 none line
  else line.map (fun ch => [ch])

/-- Padding of lines 113–115: `if width and len(line) < width` — a zero width
is falsy and pads nothing. -/
def padLine (w : Nat) (line : List Char) : List Char :=
  if w ≠ 0 ∧ line.length < w then line ++ List.replicate (w - line.length) ' ' else line

/-- `max((len(l) for l in lines), default=0)` of line 89. -/
def maxLen (lines : List (List Char)) : Nat :=
  lines.foldr (fun l acc => max l.length acc) 0

/-- Row iteration of `render_frame_with_colors` (lines 85–155) over
already-split lines, parametrized by the cell-color lookup: resolve the width
(the longest line when absent), pad each line, render each row and join the
rows with newlines. -/
def renderLines (cm : Nat × Nat → Option (List Char)) (lines : List (List Char))
    (width : Option Nat) (mode : String) : List Char :=
  let w := match width with
    | none => maxLen lines
    | some v => v
  charsJoin (lines.enum.map (fun p => (renderRow cm mode p.1 (padLine w p.2)).flatten))

/-- `render_frame_with_colors` (lines 85–155). -/
def render_frame_with_colors (f : Frame) (width : Option Nat) (mode : String) :
    List Char :=
  renderLines (cmLookup (buildColorMap f)) (splitlinesL (frameText f)) width mode

/-- Text precomputation of `play_animation` (lines 206–209): frames are
rendered through `render_frame_with_colors` in a color mode, and through bare
`frame_to_text` when the mode is `none`. -/
def precomputeTexts (frames : List Frame) (mode : String) (canvasWidth : Option Nat) :
    List (List Char) :=
  if mode ≠ "none" then frames.map (fun f => render_frame_with_colors f canvasWidth mode)
  else frames.map frameText

/-- A token of the `out` list is a color-set escape iff it starts with
`ESC[38` (covers both `ESC[38;2;…m` and `ESC[38;5;…m`). -/
def isSetTok (t : List Char) : Bool :=
  decide (t.take 4 = ['\x1b', '[', '3', '8'])

/-- Number of color-set escapes among the emitted tokens. -/
def countSet (ts : List (List Char)) : Nat :=
  ts.countP isSetTok

/-- Number of reset escapes among the emitted tokens. -/
def countReset (ts : List (List Char)) : Nat :=
  ts.countP (fun t => decide (t = escReset))

/-- Concrete frame for the C4 scenario: two lines of different widths, no
colors. -/
def frameC4 : Frame :=
  ⟨none, some [['A', 'B'], ['A']], none⟩

/-- Concrete frame for the C5 scenario: one line `AB`, cell (0,0) colored
`#ff0000`. -/
def frameC5 : Frame :=
  ⟨none, some [['A', 'B']], some [(['0', ',', '0'], ['#', 'f', 'f', '0', '0', '0', '0'])]⟩

/-- Concrete color lookup for the C6 witness: both cells of row 0 are
`#f00`. -/
def cmC6 : Nat × Nat → Option (List Char) :=
  fun q => if q.1 = 0 ∧ q.2 < 2 then some ['#', 'f', '0', '0'] else none

/-- Concrete color lookup for the C9 witness: cell (0,0) carries the malformed
token `zz`. -/
def cmC9 : Nat × Nat → Option (List Char) :=
  fun q => if q = (0, 0) then some ['z', 'z'] else none

/-- Terminal-affecting actions of one playback session, in program order.
`frameWrite i` is the single `os.write` of line 237 or 241 (the clear/home
escape prefix concatenated with pre-encoded frame `i`); the other
constructors are the writes of the helpers at lines 158–181 and the `print`
of line 186. -/
inductive TermEvent where
  | msgNoFrames
  | cursorHide
  | cursorShow
  | altEnter
  | altExit
  | clearScreen
  | frameWrite (idx : Nat)
deriving DecidableEq

/-- How the playback loop of lines 233–257 ends: `normal` is the `break` of
line 257 (reachable only with `loop = false`); `interrupt k` is a
`KeyboardInterrupt` (caught at line 259) delivered after `k` completed frame
writes; `sigterm k` is a SIGTERM delivered after `k` completed frame writes —
its handler (lines 294–299) writes a cursor-show itself and raises
`SystemExit`, which `except KeyboardInterrupt` does not catch, so the
`finally` restoration still runs afterwards. -/
inductive ExitPath where
  | normal
  | interrupt (k : Nat)
  | sigterm (k : Nat)

/-- Index update of lines 252–257: `idx += 1`; when the list is exhausted,
wrap to 0 if `loop` else leave the loop. -/
def nextIdx (frame_count : Nat) (loop : Bool) (idx : Nat) : Option Nat :=
  if idx + 1 ≥ frame_count then (if loop then some 0 else none) else some (idx + 1)

/-- Frame writes of a full non-looping run starting at index `idx`
(lines 233–257 with `loop = false` and no cancellation): write the current
frame, then continue while `idx + 1 < n`. -/
def runFrames (n idx : Nat) : List TermEvent :=
  if h : idx < n then
    TermEvent.frameWrite idx :: (if idx + 1 < n then runFrames n (idx + 1) else [])
  else []
termination_by n - idx
decreasing_by simp_wf; omega

/-- The first `k` frame indices visited by the loop: `0, 1, …`, wrapping
modulo `n` when looping (a non-looping run only ever reaches `k ≤ n`, where
`i % n = i`). -/
def frameIndices (n k : Nat) : List Nat :=
  (List.range k).map (fun i => i % n)

/-- Trace of terminal events of one `play_animation` call (lines 184–267):
the empty-list early return of lines 185–187; cursor-hide at line 221;
alternate-buffer entry and the initial clear at lines 224–229 unless flicker
is preferred; the loop's frame writes; then the `finally` restoration of
lines 261–267 — a cursor-show followed by an unconditional
alternate-buffer-exit.  On the SIGTERM path the handler's own cursor-show
(line 296) precedes the `finally` pair. -/
def play_trace (n : Nat) (loop preferFlicker : Bool) (ex : ExitPath) : List TermEvent :=
  if n = 0 then [TermEvent.msgNoFrames]
  else
    TermEvent.cursorHide ::
      ((if preferFlicker then [] else [TermEvent.altEnter, TermEvent.clearScreen]) ++
        (match ex with
          | ExitPath.normal => runFrames n 0
          | ExitPath.interrupt k => (frameIndices n k).map TermEvent.frameWrite
          | ExitPath.sigterm k =>
            (frameIndices n k).map TermEvent.frameWrite ++ [TermEvent.cursorShow]) ++
        [TermEvent.cursorShow, TermEvent.altExit])

/-- Frame-write indices of a trace, in order. -/
def writeEvents (t : List TermEvent) : List Nat :=
  t.filterMap (fun e =>
    match e with
    | TermEvent.frameWrite i => some i
    | _ => none)

theorem pyRound_247_mono (a b : Nat) (h : a ≤ b) : pyRound a 247 ≤ pyRound b 247 := by
  unfold pyRound
  split_ifs <;> omega

theorem pyRound_247_le (a : Nat) (h : a ≤ 5760) : pyRound a 247 ≤ 23 := by
  unfold pyRound
  split_ifs <;> omega

theorem pyRound_255_le (a : Nat) (h : a ≤ 1275) : pyRound a 255 ≤ 5 := by
  unfold pyRound
  split_ifs <;> omega

theorem hexDigit?_le {c : Char} {d : Nat} (h : hexDigit? c = some d) : d ≤ 15 := by
  unfold hexDigit? at h
  split_ifs at h <;> simp only [Option.some.injEq] at h <;> omega

theorem pyIntHex_pair {a b : Char} {da db : Nat}
    (ha : hexDigit? a = some da) (hb : hexDigit? b = some db) :
    pyIntHex [a, b] = some (16 * da + db) := by
  simp [pyIntHex, hexAcc, ha, hb]

theorem pyIntHex_single {a : Char} {da : Nat} (ha : hexDigit? a = some da) :
    pyIntHex [a] = some da := by
  simp [pyIntHex, hexAcc, ha]

theorem hexCore_three {a b c : Char} {da db dc : Nat}
    (ha : hexDigit? a = some da) (hb : hexDigit? b = some db)
    (hc : hexDigit? c = some dc) :
    hexCore [a, b, c] = some (16 * da + da, 16 * db + db, 16 * dc + dc) := by
  simp [hexCore, pySlice, pyIntHex_pair ha ha, pyIntHex_pair hb hb, pyIntHex_pair hc hc]

theorem hexCore_five {a b c d e : Char} {da db dc dd de : Nat}
    (ha : hexDigit? a = some da) (hb : hexDigit? b = some db)
    (hc : hexDigit? c = some dc) (hd : hexDigit? d = some dd)
    (he : hexDigit? e = some de) :
    hexCore [a, b, c, d, e] = some (16 * da + db, 16 * dc + dd, de) := by
  simp [hexCore, pySlice, pyIntHex_pair ha hb, pyIntHex_pair hc hd, pyIntHex_single he]

theorem hexCore_six_plus {a b c d e f : Char} (rest : List Char) {da db dc dd de df : Nat}
    (ha : hexDigit? a = some da) (hb : hexDigit? b = some db)
    (hc : hexDigit? c = some dc) (hd : hexDigit? d = some dd)
    (he : hexDigit? e = some de) (hf : hexDigit? f = some df) :
    hexCore (a :: b :: c :: d :: e :: f :: rest)
      = some (16 * da + db, 16 * dc + dd, 16 * de + df) := by
  have hlen : (a :: b :: c :: d :: e :: f :: rest).length ≠ 3 := by
    simp
  rw [hexCore, if_neg hlen]
  simp [pySlice, pyIntHex_pair ha hb, pyIntHex_pair hc hd, pyIntHex_pair he hf]

theorem hexCore_len1 (a : Char) : hexCore [a] = none := by
  cases h : hexDigit? a <;> simp [hexCore, pySlice, pyIntHex, hexAcc, h]

theorem hexCore_len2 (a b : Char) : hexCore [a, b] = none := by
  cases h1 : hexDigit? a <;> cases h2 : hexDigit? b <;>
    simp [hexCore, pySlice, pyIntHex, hexAcc, h1, h2]

theorem pyIntHex_nil : pyIntHex [] = none := rfl

theorem hexCore_len4 (a b c d : Char) : hexCore [a, b, c, d] = none := by
  cases h1 : pyIntHex [a, b] <;> cases h2 : pyIntHex [c, d] <;>
    simp [hexCore, pySlice, h1, h2, pyIntHex_nil]

theorem rgb_gray (r : Nat) :
    rgb_to_ansi256 r r r =
      if r < 8 then 16
      else if r > 248 then 231
      else 232 + pyRound ((r - 8) * 24) 247 := by
  unfold rgb_to_ansi256
  rw [if_pos ⟨rfl, rfl⟩]

/-- Claim C2, refutation of the claim as stated: the five-hex-digit token
`abcde` does not have stripped length 3 or 6, yet `hex_to_rgb` succeeds on it
(Python parses the final one-character slice `"e"`), instead of failing. -/
theorem C2_counterexample :
    hex_to_rgb ['a', 'b', 'c', 'd', 'e'] = some (171, 205, 14) ∧
    (['a', 'b', 'c', 'd', 'e'].dropWhile (fun c => c = '#')).length = 5 ∧
    (5 : Nat) ≠ 3 ∧ (5 : Nat) ≠ 6 := by
  decide

/-- Claim C2 (amended): after stripping every leading `#`, `hex_to_rgb`
succeeds with all three channels in [0,255] whenever the remaining string has
length 3, or length at least 5 with its first six characters (all of them,
when fewer) hexadecimal digits — characters beyond the sixth are ignored, and
at length 5 the blue channel comes from a single digit; it fails whenever the
remaining string has length 0, 1, 2 or 4. -/
theorem C2_hex_to_rgb_amended :
    (∀ s t : List Char, s.dropWhile (fun c => c = '#') = t →
        (t.length = 3 ∨ 5 ≤ t.length) →
        (∀ c ∈ t.take 6, (hexDigit? c).isSome = true) →
        ∃ r g b, hex_to_rgb s = some (r, g, b) ∧ r ≤ 255 ∧ g ≤ 255 ∧ b ≤ 255)
    ∧ (∀ s t : List Char, s.dropWhile (fun c => c = '#') = t →
        (t.length = 0 ∨ t.length = 1 ∨ t.length = 2 ∨ t.length = 4) →
        hex_to_rgb s = none) := by
  constructor
  · intro s t hst hlen hhex
    rw [hex_to_rgb, hst]
    rcases hlen with h3 | h5
    · rcases t with _ | ⟨a, _ | ⟨b, _ | ⟨c, _ | ⟨d, t⟩⟩⟩⟩ <;> simp at h3
      obtain ⟨da, hda⟩ := Option.isSome_iff_exists.mp (hhex a (by simp))
      obtain ⟨db, hdb⟩ := Option.isSome_iff_exists.mp (hhex b (by simp))
      obtain ⟨dc, hdc⟩ := Option.isSome_iff_exists.mp (hhex c (by simp))
      refine ⟨_, _, _, hexCore_three hda hdb hdc, ?_, ?_, ?_⟩ <;>
        [have := hexDigit?_le hda; have := hexDigit?_le hdb; have := hexDigit?_le hdc] <;>
        omega
    · rcases t with _ | ⟨a, _ | ⟨b, _ | ⟨c, _ | ⟨d, _ | ⟨e, t⟩⟩⟩⟩⟩ <;> simp at h5
      obtain ⟨da, hda⟩ := Option.isSome_iff_exists.mp (hhex a (by simp))
      obtain ⟨db, hdb⟩ := Option.isSome_iff_exists.mp (hhex b (by simp))
      obtain ⟨dc, hdc⟩ := Option.isSome_iff_exists.mp (hhex c (by simp))
      obtain ⟨dd, hdd⟩ := Option.isSome_iff_exists.mp (hhex d (by simp))
      obtain ⟨de, hde⟩ := Option.isSome_iff_exists.mp (hhex e (by simp))
      rcases t with _ | ⟨f, t⟩
      · refine ⟨_, _, _, hexCore_five hda hdb hdc hdd hde, ?_, ?_, ?_⟩ <;>
          [skip; skip; have := hexDigit?_le hde] <;>
          [have := hexDigit?_le hda; have := hexDigit?_le hdc; skip] <;>
          [have := hexDigit?_le hdb; have := hexDigit?_le hdd; skip] <;>
          omega
      · obtain ⟨df, hdf⟩ := Option.isSome_iff_exists.mp (hhex f (by simp))
        refine ⟨_, _, _, hexCore_six_plus t hda hdb hdc hdd hde hdf, ?_, ?_, ?_⟩ <;>
          [have := hexDigit?_le hda; have := hexDigit?_le hdc; have := hexDigit?_le hde] <;>
          [have := hexDigit?_le hdb; have := hexDigit?_le hdd; have := hexDigit?_le hdf] <;>
          omega
  · intro s t hst hlen
    rw [hex_to_rgb, hst]
    rcases t with _ | ⟨a, _ | ⟨b, _ | ⟨c, _ | ⟨d, _ | ⟨e, t⟩⟩⟩⟩⟩ <;> simp at hlen
    · rfl
    · exact hexCore_len1 a
    · exact hexCore_len2 a b
    · exact hexCore_len4 a b c d

/-- Witness for the amended C2: `#f00` succeeds within range, `ab` fails. -/
theorem C2_hex_to_rgb_amended_witness :
    (∃ r g b, hex_to_rgb ['#', 'f', '0', '0'] = some (r, g, b) ∧
      r ≤ 255 ∧ g ≤ 255 ∧ b ≤ 255) ∧
    hex_to_rgb ['a', 'b'] = none :=
  ⟨C2_hex_to_rgb_amended.1 ['#', 'f', '0', '0'] ['f', '0', '0'] (by decide)
      (Or.inl (by decide)) (by decide),
   C2_hex_to_rgb_amended.2 ['a', 'b'] ['a', 'b'] (by decide)
      (Or.inr (Or.inr (Or.inl (by decide))))⟩

/-- Claim C3, refutation of the claim as stated: the grayscale map is not
monotonic across the whole ramp — it reaches 255 at `r = 248` and then drops
to 231 (white) at `r = 249`. -/
theorem C3_counterexample :
    rgb_to_ansi256 248 248 248 = 255 ∧ rgb_to_ansi256 249 249 249 = 231 ∧
    ¬ rgb_to_ansi256 248 248 248 ≤ rgb_to_ansi256 249 249 249 := by
  decide

/-- Claim C3 (amended): on the grayscale branch `rgbToAnsi256(r,r,r)` is
monotonic non-decreasing for `0 ≤ r1 ≤ r2 ≤ 248`; for every `r > 248` it
returns 231, so there is a single decrease where the top of the grayscale ramp
(255 at `r = 248`) meets white (231 at `r = 249`); the endpoints behave as
stated: 16 at `r = 0` and 231 at `r = 255`. -/
theorem C3_grayscale_amended :
    (∀ r1 r2 : Nat, r1 ≤ r2 → r2 ≤ 248 →
        rgb_to_ansi256 r1 r1 r1 ≤ rgb_to_ansi256 r2 r2 r2)
    ∧ (∀ r : Nat, 248 < r → rgb_to_ansi256 r r r = 231)
    ∧ rgb_to_ansi256 0 0 0 = 16 ∧ rgb_to_ansi256 255 255 255 = 231 := by
  refine ⟨?_, ?_, by decide, by decide⟩
  · intro r1 r2 h12 h2
    rw [rgb_gray, rgb_gray]
    split_ifs <;>
      first
        | omega
        | exact Nat.add_le_add_left
            (pyRound_247_mono ((r1 - 8) * 24) ((r2 - 8) * 24) (by omega)) 232
  · intro r h
    rw [rgb_gray]
    split_ifs <;> omega

/-- Witness for the amended C3 at concrete grayscale inputs. -/
theorem C3_grayscale_amended_witness :
    rgb_to_ansi256 10 10 10 ≤ rgb_to_ansi256 200 200 200 ∧
    rgb_to_ansi256 250 250 250 = 231 :=
  ⟨C3_grayscale_amended.1 10 200 (by decide) (by decide),
   C3_grayscale_amended.2.1 250 (by decide)⟩

/-- Claim C10: for all channels in [0,255], `rgb_to_ansi256` lands in
[16,255] — inside the 6×6×6 cube (16–231) or the grayscale ramp (232–255),
never one of the 16 basic-color indices 0–15. -/
theorem C10_range (r g b : Nat) (hr : r ≤ 255) (hg : g ≤ 255) (hb : b ≤ 255) :
    16 ≤ rgb_to_ansi256 r g b ∧ rgb_to_ansi256 r g b ≤ 255 := by
  unfold rgb_to_ansi256
  by_cases hgray : r = g ∧ g = b
  · rw [if_pos hgray]
    by_cases h8 : r < 8
    · rw [if_pos h8]; omega
    · rw [if_neg h8]
      by_cases h248 : r > 248
      · rw [if_pos h248]; omega
      · rw [if_neg h248]
        have := pyRound_247_le ((r - 8) * 24) (by omega)
        omega
  · rw [if_neg hgray]
    have h1 := pyRound_255_le (r * 5) (by omega)
    have h2 := pyRound_255_le (g * 5) (by omega)
    have h3 := pyRound_255_le (b * 5) (by omega)
    omega

/-- Witness for C10 at a concrete non-gray triple. -/
theorem C10_range_witness :
    16 ≤ rgb_to_ansi256 12 34 56 ∧ rgb_to_ansi256 12 34 56 ≤ 255 :=
  C10_range 12 34 56 (by decide) (by decide) (by decide)

theorem rstripNl_id {l : List Char} (h : ∀ c ∈ l, c ≠ '\n') : rstripNlL l = l := by
  unfold rstripNlL
  cases hr : l.reverse with
  | nil =>
    have : l = [] := by simpa using congrArg List.reverse hr
    simp [this]
  | cons c r =>
    have hc : c ∈ l := by
      rw [← List.mem_reverse, hr]; simp
    rw [List.dropWhile_cons]
    simp only [decide_eq_true_eq]
    rw [if_neg (h c hc)]
    rw [← hr, List.reverse_reverse]

theorem charsJoin_mem :
    ∀ (ls : List (List Char)) (c : Char), c ∈ charsJoin ls →
      c = '\n' ∨ ∃ l ∈ ls, c ∈ l := by
  intro ls
  induction ls with
  | nil => simp [charsJoin]
  | cons l ls ih =>
    cases ls with
    | nil =>
      intro c hc
      right
      exact ⟨l, by simp, by simpa [charsJoin] using hc⟩
    | cons l2 ls2 =>
      intro c hc
      have hrw : charsJoin (l :: l2 :: ls2) = l ++ '\n' :: charsJoin (l2 :: ls2) := rfl
      rw [hrw] at hc
      rcases List.mem_append.mp hc with h | h
      · exact Or.inr ⟨l, by simp, h⟩
      · rcases List.mem_cons.mp h with rfl | h2
        · exact Or.inl rfl
        · rcases ih c h2 with h3 | ⟨l', hl', hcl'⟩
          · exact Or.inl h3
          · exact Or.inr ⟨l', by simp [hl'], hcl'⟩

/-- Claim C4, refutation of the claim as stated: rendering the two-line frame
`["AB", "A"]` at `colorMode=none` with target width 5 yields the lines joined
unpadded — not right-padded to the width as claimed (the `none` branch of
lines 206–209 calls `frame_to_text` directly and never pads). -/
theorem C4_counterexample :
    precomputeTexts [frameC4] "none" (some 5) = [['A', 'B', '\n', 'A']] ∧
    (['A', 'B', '\n', 'A'] : List Char) ≠
      ['A', 'B', ' ', ' ', ' ', '\n', 'A', ' ', ' ', ' ', ' '] := by
  decide

/-- Claim C4 (amended): for a frame with an empty colorMap rendered with
colorMode=none, the produced output equals the frame's lines joined with
newline separators — the target width is ignored, no padding happens on this
code path — and (for frames of printable lines) the output contains no ANSI
escape character. -/
theorem C4_none_joined_amended :
    ∀ (ls : List (List Char)) (w : Option Nat),
      (∀ l ∈ ls, ∀ c ∈ l, c ≠ '\n') →
      (∀ l ∈ ls, ∀ c ∈ l, c ≠ '\x1b') →
      precomputeTexts [⟨none, some ls, none⟩] "none" w = [charsJoin ls] ∧
      ∀ c ∈ charsJoin ls, c ≠ '\x1b' := by
  intro ls w hnl hesc
  constructor
  · have hmap : ls.map rstripNlL = ls := by
      induction ls with
      | nil => rfl
      | cons l ls ih =>
        rw [List.map_cons, rstripNl_id (hnl l (by simp)),
          ih (fun l' hl' => hnl l' (by simp [hl'])) (fun l' hl' => hesc l' (by simp [hl']))]
    simp [precomputeTexts, frameText, frameContentText, hmap]
  · intro c hc
    rcases charsJoin_mem ls c hc with rfl | ⟨l, hl, hcl⟩
    · decide
    · exact hesc l hl c hcl

/-- Witness for the amended C4 at the concrete two-line frame of the
counterexample. -/
theorem C4_none_joined_amended_witness :
    precomputeTexts [⟨none, some [['A', 'B'], ['A']], none⟩] "none" (some 5)
      = [charsJoin [['A', 'B'], ['A']]] ∧
    ∀ c ∈ charsJoin [['A', 'B'], ['A']], c ≠ '\x1b' :=
  C4_none_joined_amended [['A', 'B'], ['A']] (some 5) (by decide) (by decide)

/-- Claim C5, refutation of the claim as stated: the render of frame
`{lines:["AB"], colorMap:{(0,0):"#ff0000"}}` at truecolor, width 2, is not
`ESC[38;2;255;0;0m A ESC[0m B` — the loop records the uncolored cell as the
truthy tuple `(None, None, None)`, so a trailing `ESC[0m` is emitted after
`B`. -/
theorem C5_counterexample :
    render_frame_with_colors frameC5 (some 2) "truecolor" ≠
      escSetTC 255 0 0 ++ 'A' :: (escReset ++ ['B']) := by
  decide

/-- Claim C5 (amended): the scenario render is
`ESC[38;2;255;0;0m A ESC[0m B ESC[0m` — exactly one color-set escape before
`A` and a single reset before the uncolored `B`, but with one further trailing
reset after `B` (the end-of-row reset of line 151–152 fires because
`prev_color` is the non-`None` tuple `(None, None, None)`). -/
theorem C5_scenario_amended :
    render_frame_with_colors frameC5 (some 2) "truecolor"
      = escSetTC 255 0 0 ++ 'A' :: (escReset ++ 'B' :: escReset) := by
  decide

theorem isSetTok_single (ch : Char) : isSetTok [ch] = false := by
  simp [isSetTok]

theorem isSetTok_escSetTC (r g b : Nat) : isSetTok (escSetTC r g b) = true := by
  simp [isSetTok, escSetTC]

theorem isSetTok_escSet256 (n : Nat) : isSetTok (escSet256 n) = true := by
  simp [isSetTok, escSet256]

theorem isSetTok_escReset : isSetTok escReset = false := by
  decide

theorem escSetTC_length (r g b : Nat) : 8 ≤ (escSetTC r g b).length := by
  simp [escSetTC]
  omega

theorem escSet256_length (n : Nat) : 8 ≤ (escSet256 n).length := by
  simp [escSet256]

theorem escSetTC_ne_escReset (r g b : Nat) : escSetTC r g b ≠ escReset := by
  intro h
  have := congrArg List.length h
  have h8 := escSetTC_length r g b
  simp [escReset] at this
  omega

theorem escSet256_ne_escReset (n : Nat) : escSet256 n ≠ escReset := by
  intro h
  have := congrArg List.length h
  have h8 := escSet256_length n
  simp [escReset] at this
  omega

theorem single_ne_escReset (ch : Char) : [ch] ≠ escReset := by
  simp [escReset]

theorem countSet_chars (l : List Char) : countSet (l.map (fun ch => [ch])) = 0 := by
  induction l with
  | nil => rfl
  | cons a l ih =>
    simp only [countSet, List.map_cons, List.countP_cons, isSetTok_single] at *
    simpa using ih

theorem countReset_chars (l : List Char) :
    countReset (l.map (fun ch => [ch])) = 0 := by
  induction l with
  | nil => rfl
  | cons a l ih =>
    simp only [countReset, List.map_cons, List.countP_cons] at *
    simp [single_ne_escReset a, ih]

theorem renderRowTCGo_const (cm : Nat × Nat → Option (List Char)) (ri : Nat)
    (c : Nat × Nat × Nat) :
    ∀ (rest : List Char) (colIdx : Nat),
      (∀ i, i < rest.length → resolveRgb cm (ri, colIdx + i) = some c) →
      renderRowTCGo cm ri colIdx (some (some c)) rest
        = rest.map (fun ch => [ch]) ++ [escReset] := by
  intro rest
  induction rest with
  | nil =>
    intro colIdx h
    simp [renderRowTCGo]
  | cons ch rest ih =>
    intro colIdx h
    have h0 : resolveRgb cm (ri, colIdx) = some c := by
      simpa using h 0 (by simp)
    have hshift : ∀ i, i < rest.length → resolveRgb cm (ri, colIdx + 1 + i) = some c := by
      intro i hi
      have := h (i + 1) (by simp; omega)
      rwa [show colIdx + (i + 1) = colIdx + 1 + i by omega] at this
    simp only [renderRowTCGo, h0, if_pos rfl]
    rw [ih (colIdx + 1) hshift]
    simp

theorem renderRow256Go_const (cm : Nat × Nat → Option (List Char)) (ri : Nat)
    (r g b : Nat) :
    ∀ (rest : List Char) (colIdx : Nat),
      (∀ i, i < rest.length → resolveRgb cm (ri, colIdx + i) = some (r, g, b)) →
      renderRow256Go cm ri colIdx (some (rgb_to_ansi256 r g b)) rest
        = rest.map (fun ch => [ch]) ++ [escReset] := by
  intro rest
  induction rest with
  | nil =>
    intro colIdx h
    simp [renderRow256Go]
  | cons ch rest ih =>
    intro colIdx h
    have h0 : resolveRgb cm (ri, colIdx) = some (r, g, b) := by
      simpa using h 0 (by simp)
    have hshift : ∀ i, i < rest.length →
        resolveRgb cm (ri, colIdx + 1 + i) = some (r, g, b) := by
      intro i hi
      have := h (i + 1) (by simp; omega)
      rwa [show colIdx + (i + 1) = colIdx + 1 + i by omega] at this
    simp only [renderRow256Go, h0, Option.map_some', if_pos rfl]
    rw [ih (colIdx + 1) hshift]
    simp

/-- Claim C6: when every cell of a non-empty row resolves to one fixed color,
the row render emits exactly one color-set escape and exactly one reset — in
truecolor mode and in 256-color mode alike — rather than one pair per
character. -/
theorem C6_one_escape_pair
    (cm : Nat × Nat → Option (List Char)) (ri : Nat) (line : List Char)
    (c : Nat × Nat × Nat)
    (hne : line ≠ [])
    (hall : ∀ i, i < line.length → resolveRgb cm (ri, i) = some c) :
    (countSet (renderRow cm "truecolor" ri line) = 1 ∧
      countReset (renderRow cm "truecolor" ri line) = 1) ∧
    (countSet (renderRow cm "256" ri line) = 1 ∧
      countReset (renderRow cm "256" ri line) = 1) := by
  obtain ⟨r, g, b⟩ := c
  cases line with
  | nil => exact absurd rfl hne
  | cons ch rest =>
    have h0 : resolveRgb cm (ri, 0) = some (r, g, b) := hall 0 (by simp)
    have hshift : ∀ i, i < rest.length → resolveRgb cm (ri, 0 + 1 + i) = some (r, g, b) := by
      intro i hi
      have := hall (i + 1) (by simp; omega)
      rwa [show (i + 1 : Nat) = 0 + 1 + i by omega] at this
    constructor
    · have hrow : renderRow cm "truecolor" ri (ch :: rest)
          = ([escSetTC r g b] ++ [[ch]]) ++ (rest.map (fun ch => [ch]) ++ [escReset]) := by
        rw [renderRow, if_pos rfl]
        simp only [renderRowTCGo, h0]
        rw [if_neg (by simp), renderRowTCGo_const cm ri (r, g, b) rest (0 + 1) hshift]
        simp
      rw [hrow]
      constructor
      · simp [countSet, List.countP_append, List.countP_cons, isSetTok_escSetTC,
          isSetTok_single, isSetTok_escReset, countSet_chars]
      · simp [countReset, List.countP_append, List.countP_cons,
          escSetTC_ne_escReset r g b, single_ne_escReset]
    · have hrow : renderRow cm "256" ri (ch :: rest)
          = ([escSet256 (rgb_to_ansi256 r g b)] ++ [[ch]]) ++
              (rest.map (fun ch => [ch]) ++ [escReset]) := by
        rw [renderRow, if_neg (by decide), if_pos rfl]
        simp only [renderRow256Go, h0, Option.map_some']
        rw [if_neg (by simp), renderRow256Go_const cm ri r g b rest (0 + 1) hshift]
        simp
      rw [hrow]
      constructor
      · simp [countSet, List.countP_append, List.countP_cons, isSetTok_escSet256,
          isSetTok_single, isSetTok_escReset]
      · simp [countReset, List.countP_append, List.countP_cons,
          escSet256_ne_escReset, single_ne_escReset]

/-- Witness for C6: both cells of the row `AB` colored `#f00`. -/
theorem C6_one_escape_pair_witness :
    (countSet (renderRow cmC6 "truecolor" 0 ['A', 'B']) = 1 ∧
      countReset (renderRow cmC6 "truecolor" 0 ['A', 'B']) = 1) ∧
    (countSet (renderRow cmC6 "256" 0 ['A', 'B']) = 1 ∧
      countReset (renderRow cmC6 "256" 0 ['A', 'B']) = 1) :=
  C6_one_escape_pair cmC6 0 ['A', 'B'] (255, 0, 0) (by decide) (by decide)

theorem renderRowTCGo_congr (cm cm' : Nat × Nat → Option (List Char))
    (h : ∀ q, resolveRgb cm q = resolveRgb cm' q) (ri : Nat) :
    ∀ (line : List Char) (colIdx : Nat) (prev : Option (Option (Nat × Nat × Nat))),
      renderRowTCGo cm ri colIdx prev line = renderRowTCGo cm' ri colIdx prev line := by
  intro line
  induction line with
  | nil => intro colIdx prev; rfl
  | cons ch rest ih =>
    intro colIdx prev
    simp only [renderRowTCGo, h (ri, colIdx)]
    rw [ih, ih]

theorem renderRow256Go_congr (cm cm' : Nat × Nat → Option (List Char))
    (h : ∀ q, resolveRgb cm q = resolveRgb cm' q) (ri : Nat) :
    ∀ (line : List Char) (colIdx : Nat) (prev : Option Nat),
      renderRow256Go cm ri colIdx prev line = renderRow256Go cm' ri colIdx prev line := by
  intro line
  induction line with
  | nil => intro colIdx prev; rfl
  | cons ch rest ih =>
    intro colIdx prev
    simp only [renderRow256Go, h (ri, colIdx)]
    rw [ih, ih]

theorem renderRow_congr (cm cm' : Nat × Nat → Option (List Char))
    (h : ∀ q, resolveRgb cm q = resolveRgb cm' q) (mode : String) (ri : Nat)
    (line : List Char) :
    renderRow cm mode ri line = renderRow cm' mode ri line := by
  unfold renderRow
  split_ifs
  · exact renderRowTCGo_congr cm cm' h ri line 0 none
  · exact renderRow256Go_congr cm cm' h ri line 0 none
  · rfl

theorem renderLines_congr (cm cm' : Nat × Nat → Option (List Char))
    (h : ∀ q, resolveRgb cm q = resolveRgb cm' q) (lines : List (List Char))
    (width : Option Nat) (mode : String) :
    renderLines cm lines width mode = renderLines cm' lines width mode := by
  unfold renderLines
  have key : ∀ w : Nat,
      charsJoin (lines.enum.map (fun p => (renderRow cm mode p.1 (padLine w p.2)).flatten))
        = charsJoin (lines.enum.map (fun p => (renderRow cm' mode p.1 (padLine w p.2)).flatten)) := by
    intro w
    congr 1
    apply List.map_congr_left
    intro p _
    rw [renderRow_congr cm cm' h]
  exact key _

/-- Claim C9: a cell whose color token fails hex parsing is rendered exactly
as an uncolored cell — the whole-frame render is unchanged when the malformed
token is removed from the color map — and since the render is a total
function, a malformed token can never abort rendering; every other cell is
untouched. -/
theorem C9_malformed_uncolored
    (cm : Nat × Nat → Option (List Char)) (p : Nat × Nat)
    (lines : List (List Char)) (width : Option Nat) (mode : String)
    (hbad : ∀ tok, cm p = some tok → hex_to_rgb tok = none) :
    renderLines cm lines width mode
      = renderLines (fun q => if q = p then none else cm q) lines width mode := by
  apply renderLines_congr
  intro q
  by_cases hq : q = p
  · subst hq
    have h1 : resolveRgb cm q = none := by
      unfold resolveRgb
      cases hcq : cm q with
      | none => rfl
      | some tok =>
        by_cases ht : tok = []
        · simp [ht]
        · simp [ht, hbad tok hcq]
    rw [h1]
    simp [resolveRgb]
  · simp [resolveRgb, hq]

/-- Witness for C9: erasing the malformed token `zz` at cell (0,0) leaves the
render of the row `AB` unchanged. -/
theorem C9_malformed_uncolored_witness :
    renderLines cmC9 [['A', 'B']] none "truecolor"
      = renderLines (fun q => if q = (0, 0) then none else cmC9 q)
          [['A', 'B']] none "truecolor" :=
  C9_malformed_uncolored cmC9 (0, 0) [['A', 'B']] none "truecolor"
    (fun tok htok => by
      have h2 : ['z', 'z'] = tok := by simpa [cmC9] using htok
      subst h2
      decide)

theorem runFrames_eq (n : Nat) :
    ∀ k idx, idx < n → n - idx = k →
      runFrames n idx = (List.range k).map (fun i => TermEvent.frameWrite (idx + i)) := by
  intro k
  induction k with
  | zero => intro idx h hk; omega
  | succ k ih =>
    intro idx h hk
    rw [runFrames, dif_pos h]
    by_cases h2 : idx + 1 < n
    · rw [if_pos h2, ih (idx + 1) h2 (by omega), List.range_succ_eq_map]
      simp only [List.map_cons, List.map_map, Nat.add_zero]
      congr 1
      apply List.map_congr_left
      intro a _
      simp only [Function.comp_apply]
      exact congrArg _ (by omega)
    · rw [if_neg h2]
      have hk1 : k = 0 := by omega
      subst hk1
      have h1 : List.range 1 = [0] := rfl
      simp [h1]

theorem runFrames_zero_eq (n : Nat) (h : 0 < n) :
    runFrames n 0 = (List.range n).map TermEvent.frameWrite := by
  have := runFrames_eq n n 0 h (by omega)
  simpa using this

theorem writeEvents_map_frameWrite (l : List Nat) :
    writeEvents (l.map TermEvent.frameWrite) = l := by
  induction l with
  | nil => rfl
  | cons a l ih =>
    simp only [writeEvents, List.map_cons, List.filterMap_cons] at *
    simp [ih]

theorem count_map_frameWrite_show (l : List Nat) :
    (l.map TermEvent.frameWrite).count TermEvent.cursorShow = 0 := by
  rw [List.count_eq_zero]
  intro h
  rcases List.mem_map.mp h with ⟨i, _, hi⟩
  exact absurd hi (by simp)

theorem count_map_frameWrite_altExit (l : List Nat) :
    (l.map TermEvent.frameWrite).count TermEvent.altExit = 0 := by
  rw [List.count_eq_zero]
  intro h
  rcases List.mem_map.mp h with ⟨i, _, hi⟩
  exact absurd hi (by simp)

/-- Claim C1, refutation of the claim as stated: a termination signal
delivered after one frame write of a one-frame looping session leads to the
cursor-show escape being written twice — once by the SIGTERM handler of lines
294–299 and once more by the `finally` block of lines 261–267 — not exactly
once. -/
theorem C1_counterexample :
    (play_trace 1 true false (ExitPath.sigterm 1)).count TermEvent.cursorShow = 2 ∧
    (play_trace 1 true false (ExitPath.sigterm 1)).count TermEvent.cursorShow ≠ 1 := by
  decide

/-- Claim C1 (amended): for every non-empty frame list and every exit path,
the restoration runs at least once — the alternate-buffer-exit is written
exactly once, and the cursor-show exactly once on normal completion and on a
user interrupt, but exactly twice on a termination signal (the SIGTERM
handler writes it and the `finally` block writes it again). -/
theorem C1_restoration_amended (n : Nat) (loop preferFlicker : Bool) (ex : ExitPath)
    (hn : 0 < n) :
    (play_trace n loop preferFlicker ex).count TermEvent.altExit = 1 ∧
    (play_trace n loop preferFlicker ex).count TermEvent.cursorShow =
      (match ex with
        | ExitPath.sigterm _ => 2
        | _ => 1) := by
  have hr1 : (runFrames n 0).count TermEvent.altExit = 0 := by
    rw [runFrames_zero_eq n hn]; exact count_map_frameWrite_altExit _
  have hr2 : (runFrames n 0).count TermEvent.cursorShow = 0 := by
    rw [runFrames_zero_eq n hn]; exact count_map_frameWrite_show _
  unfold play_trace
  rw [if_neg (by omega)]
  cases ex <;> cases preferFlicker <;>
    simp_all [List.count_cons, List.count_append,
      count_map_frameWrite_show, count_map_frameWrite_altExit]

/-- Witness for the amended C1: a two-frame non-looping session interrupted
after one frame write restores exactly once. -/
theorem C1_restoration_amended_witness :
    (play_trace 2 false false (ExitPath.interrupt 1)).count TermEvent.altExit = 1 ∧
    (play_trace 2 false false (ExitPath.interrupt 1)).count TermEvent.cursorShow = 1 :=
  C1_restoration_amended 2 false false (ExitPath.interrupt 1) (by decide)

/-- Claim C7: with an empty frame list the session only reports "no frames"
and terminates — its trace is exactly the report message, so zero frame
bytes are written and no terminal-mode change (cursor, alternate buffer,
clear) is ever issued, on any configuration and exit path. -/
theorem C7_empty_frames (loop preferFlicker : Bool) (ex : ExitPath) :
    play_trace 0 loop preferFlicker ex = [TermEvent.msgNoFrames] ∧
    ∀ e ∈ play_trace 0 loop preferFlicker ex, e = TermEvent.msgNoFrames := by
  constructor <;> simp [play_trace]

/-- Claim C8: a non-looping, uncancelled session over `n` frames writes
exactly the frames `0, …, n-1` in order and then goes straight into the
restoration pair with no further frame write; with `loop = true` the index
update at the last frame wraps to 0. -/
theorem C8_write_count (n : Nat) (preferFlicker : Bool) (hn : 0 < n) :
    (∃ pre, play_trace n false preferFlicker ExitPath.normal
        = pre ++ [TermEvent.cursorShow, TermEvent.altExit] ∧
      writeEvents pre = List.range n) ∧
    nextIdx n true (n - 1) = some 0 := by
  constructor
  · refine ⟨TermEvent.cursorHide ::
      ((if preferFlicker then [] else [TermEvent.altEnter, TermEvent.clearScreen]) ++
        runFrames n 0), ?_, ?_⟩
    · unfold play_trace
      rw [if_neg (by omega)]
      simp
    · have hw := writeEvents_map_frameWrite (List.range n)
      cases preferFlicker <;>
        simp_all [writeEvents, List.filterMap_append, List.filterMap_cons,
          runFrames_zero_eq n hn]
  · unfold nextIdx
    rw [if_pos (by omega)]
    simp

/-- Witness for C8 with three frames. -/
theorem C8_write_count_witness :
    (∃ pre, play_trace 3 false false ExitPath.normal
        = pre ++ [TermEvent.cursorShow, TermEvent.altExit] ∧
      writeEvents pre = List.range 3) ∧
    nextIdx 3 true 2 = some 0 :=
  C8_write_count 3 false (by decide)

end PraiseFrank
